import Mathlib

/-!
Verification of the Campus Air Quality Monitor local web server (`app.py`).

The program is a Flask glue script with two parts:

* a static router (`create_app`): five routes mapping URL paths to files on
  disk, each served through `flask.send_from_directory`;
* a startup sequencer (`main`): validates a fixed list of required files,
  prints operator-facing text, launches a delayed browser-open task and then
  runs the server on `localhost:5000`.

The filesystem is modelled as a partial map from paths (lists of segments,
relative to the directory containing `app.py`) to entries.  Request paths are
lists of URL segments with the leading slash removed, the root URL `/` giving
the empty list.  `send_from_directory` is modelled with werkzeug's
`safe_join` semantics: the requested sub-path is normalised
(`posixpath.normpath`) and refused with 404 when the normalised path would
climb out of the base directory.  The effectful `main` is modelled as a pure
function from the filesystem and the outcome of the blocking `app.run` call
to a trace of actions, from which the printed lines and the process exit
code are read off.
-/

namespace AirMonitor

/-- A filesystem entry: a regular file with its byte content, or a
directory. -/
inductive Entry where
  | file (content : List Nat)
  | dir
deriving DecidableEq

/-- The filesystem as seen from the project root (the directory containing
`app.py`): a path, given as the list of its segments, maps to the entry
there, if any. -/
def FS : Type := List String → Option Entry

/-- `Path(...).exists()`: true when any entry, file or directory, is present
at the path. -/
def existsEntry (fs : FS) (p : List String) : Bool := (fs p).isSome

/-- Whether a segment is a plain name: not empty, not `.`, not `..`. -/
def plainSeg (s : String) : Bool := decide (s ≠ "" ∧ s ≠ "." ∧ s ≠ "..")

/-- One step of `posixpath.normpath` over a reversed accumulator of
segments: empty and `.` segments vanish, `..` cancels the previous plain
segment and survives only when nothing is left to cancel. -/
def normStep (acc : List String) (s : String) : List String :=
  if s = "" ∨ s = "." then acc
  else if s = ".." then
    match acc with
    | [] => [".."]
    | a :: rest => if a = ".." then ".." :: a :: rest else rest
  else s :: acc

/-- `posixpath.normpath` on a relative path split into segments. -/
def normSegs (segs : List String) : List String :=
  (segs.foldl normStep []).reverse

/-- `werkzeug.utils.safe_join`, restricted to the part relative to the base
directory: normalise the requested sub-path and refuse it when the result
still begins with `..`, i.e. would escape the base directory. -/
def safeJoin (fname : List String) : Option (List String) :=
  let n := normSegs fname
  if n.head? = some ".." then none else some n

/-- A requested sub-path whose resolution would escape the base
directory. -/
def escapes (fname : List String) : Bool := (safeJoin fname).isNone

/-- An HTTP response: status code and, for a served file, its bytes. -/
structure Response where
  status : Nat
  body : Option (List Nat)
deriving DecidableEq

/-- The 404 response raised by `send_from_directory` for unsafe or missing
paths, and by the framework for unmatched routes. -/
def notFound : Response := ⟨404, none⟩

/-- `flask.send_from_directory base fname`: join `fname` safely under
`base`; serve the file's bytes with status 200 when a regular file is there,
else 404. -/
def sendFromDirectory (fs : FS) (base : List String) (fname : List String) :
    Response :=
  match safeJoin fname with
  | none => notFound
  | some n =>
    match fs (base ++ n) with
    | some (Entry.file c) => ⟨200, some c⟩
    | _ => notFound

/-- Whether a list of segments is accepted by Flask's `path` converter: the
matched text must be non-empty and must not begin with a slash, so the list
is non-empty and its first segment is non-empty. -/
def pathParamOk (rest : List String) : Bool :=
  match rest with
  | [] => false
  | s :: _ => decide (s ≠ "")

/-- The route table registered by `create_app`, applied to a GET request
path split into segments: `/` serves `pages/index.html`, `/dashboard` and
`/dashboard/<location>` serve `pages/dashboard.html`, `/js/<filename>` and
`/data/<filename>` serve the named file from the `js` and `data`
directories; anything else is 404. -/
def route (fs : FS) (path : List String) : Response :=
  match path with
  | [] => sendFromDirectory fs ["pages"] ["index.html"]
  | seg :: rest =>
    if seg = "dashboard" then
      if rest = [] then sendFromDirectory fs ["pages"] ["dashboard.html"]
      else if pathParamOk rest then
        sendFromDirectory fs ["pages"] ["dashboard.html"]
      else notFound
    else if seg = "js" then
      if pathParamOk rest then sendFromDirectory fs ["js"] rest else notFound
    else if seg = "data" then
      if pathParamOk rest then sendFromDirectory fs ["data"] rest else notFound
    else notFound

/-- The fixed required-file list checked by `main`, in source order, each
path split into segments. -/
def requiredFiles : List (List String) :=
  [["pages", "index.html"], ["pages", "dashboard.html"],
   ["js", "data-manager.js"], ["data", "locations.json"]]

/-- The `missing_files` list built by `main`: the required paths, in order,
for which `Path.exists()` is false. -/
def missingFiles (fs : FS) : List (List String) :=
  requiredFiles.filter (fun p => !(existsEntry fs p))

/-- Join path segments back into the relative path string the program
prints. -/
def joinPath (p : List String) : String := String.intercalate "/" p

/-- The outcome of the blocking `app.run` call inside the `try` block of
`main`: interrupted by the operator, raising some other exception, or
returning normally. -/
inductive ServeEvent where
  | interrupt
  | exn (msg : String)
  | normal
deriving DecidableEq

/-- An observable step of `main`, in the order the source performs them. -/
inductive Action where
  | computeRoot
  | checkExists (p : List String)
  | printLine (s : String)
  | createApp
  | startBrowserThread
  | serve (host : String) (port : Nat)
  | exitProcess (code : Nat)
deriving DecidableEq

/-- The fixed operator-facing status block `main` prints after validation
succeeds, line by line. -/
def bannerLines : List String :=
  ["🌬️  Campus Air Quality Monitor",
   "==============================",
   "",
   "Starting local web server...",
   "Server will be available at: http://localhost:5000",
   "",
   "Navigation:",
   "- Home Page: http://localhost:5000",
   "- Dashboard: Click location cards to view real-time data",
   "",
   "Features:",
   "- Real-time CO2 and humidity monitoring",
   "- Add/edit/delete locations",
   "- Historical data charts",
   "- ThingSpeak API integration",
   "",
   "Press Ctrl+C to stop the server",
   ""]

/-- The line printed just before `app.run`. -/
def startingLine : String := "Starting server on http://localhost:5000..."

/-- The fallback instruction printed when opening the browser raises. -/
def fallbackLine : String := "Please open http://localhost:5000 in your browser"

/-- The steps of the `try/except` tail of `main`, by outcome of `app.run`:
`KeyboardInterrupt` prints the farewell and the process ends with code 0,
any other exception prints the error and calls `sys.exit(1)`, a normal
return ends the process with code 0. -/
def outcomeTrace : ServeEvent → List Action
  | ServeEvent.interrupt =>
      [Action.printLine "\n👋 Server stopped by user",
       Action.printLine "Thanks for using Campus Air Quality Monitor!",
       Action.exitProcess 0]
  | ServeEvent.exn m =>
      [Action.printLine ("❌ Error starting server: " ++ m),
       Action.exitProcess 1]
  | ServeEvent.normal => [Action.exitProcess 0]

/-- The full trace of `main`: compute the project root, check each required
file in order; when some are missing, print each and exit with code 1; else
print the status block, build the app, start the browser thread, print the
starting line and run the server on `localhost:5000`, finishing as the
serve outcome dictates. -/
def mainTrace (fs : FS) (ev : ServeEvent) : List Action :=
  Action.computeRoot :: requiredFiles.map Action.checkExists ++
  (if missingFiles fs = [] then
    bannerLines.map Action.printLine ++
    [Action.createApp, Action.startBrowserThread,
     Action.printLine startingLine, Action.serve "localhost" 5000] ++
    outcomeTrace ev
  else
    Action.printLine "Error: Missing required files!" ::
    (missingFiles fs).map (fun p => Action.printLine ("  - " ++ joinPath p)) ++
    [Action.exitProcess 1])

/-- The line an action prints, if any. -/
def printedOf : Action → Option String
  | Action.printLine s => some s
  | _ => none

/-- The lines `main` prints, in order. -/
def mainOutput (fs : FS) (ev : ServeEvent) : List String :=
  (mainTrace fs ev).filterMap printedOf

/-- The process exit code of `main`: 1 when required files are missing
(`sys.exit(1)`) or `app.run` raises other than `KeyboardInterrupt`
(`sys.exit(1)`), 0 otherwise. -/
def mainExitCode (fs : FS) (ev : ServeEvent) : Nat :=
  if missingFiles fs = [] then
    match ev with
    | ServeEvent.exn _ => 1
    | _ => 0
  else 1

/-- The outcome of the call `webbrowser.open(url)`: it returns a boolean
(False when no browser could be opened) or raises an exception. -/
inductive BrowserAttempt where
  | returns (opened : Bool)
  | raises (msg : String)
deriving DecidableEq

/-- What one run of the `open_browser` task does: how long it sleeps first,
the URLs it asks `webbrowser.open` to open, in order, the lines it prints,
and whether its failure propagates to the server. -/
structure BrowserRun where
  delaySecs : ℚ
  openedUrls : List String
  printed : List String
  fatal : Bool
deriving DecidableEq

/-- The `open_browser` task: sleep 1.5 seconds, call `webbrowser.open` on
`http://localhost:5000` once inside `try`; when the call returns, print the
success message; when it raises, print the error and the fallback
instruction.  Nothing propagates out of the task. -/
def open_browser (r : BrowserAttempt) : BrowserRun :=
  { delaySecs := 1.5
    openedUrls := ["http://localhost:5000"]
    printed :=
      match r with
      | BrowserAttempt.returns _ => ["Browser opened successfully!"]
      | BrowserAttempt.raises m =>
          ["Could not open browser automatically: " ++ m, fallbackLine]
    fatal := false }

/-- A filesystem holding exactly the four required files, used to evaluate
the model at a concrete input. -/
def demoFS : FS := fun p =>
  if p = ["pages", "index.html"] then some (Entry.file [0])
  else if p = ["pages", "dashboard.html"] then some (Entry.file [1])
  else if p = ["js", "data-manager.js"] then some (Entry.file [2])
  else if p = ["data", "locations.json"] then some (Entry.file [3])
  else none

/-- The empty filesystem: nothing exists. -/
def emptyFS : FS := fun _ => none

theorem plainSeg_iff {s : String} :
    plainSeg s = true ↔ s ≠ "" ∧ s ≠ "." ∧ s ≠ ".." := by
  simp [plainSeg]

theorem normStep_plain {s : String} (acc : List String)
    (h : plainSeg s = true) : normStep acc s = s :: acc := by
  rcases plainSeg_iff.mp h with ⟨h1, h2, h3⟩
  simp [normStep, h1, h2, h3]

theorem foldl_normStep_plain {segs : List String}
    (h : ∀ s ∈ segs, plainSeg s = true) :
    ∀ acc, segs.foldl normStep acc = segs.reverse ++ acc := by
  induction segs with
  | nil => intro acc; simp
  | cons a tl ih =>
    intro acc
    rw [List.foldl_cons, normStep_plain acc (h a (by simp)),
      ih (fun s hs => h s (by simp [hs])) (a :: acc)]
    simp

theorem normSegs_of_plain {segs : List String}
    (h : ∀ s ∈ segs, plainSeg s = true) : normSegs segs = segs := by
  simp [normSegs, foldl_normStep_plain h]

theorem safeJoin_of_plain {segs : List String}
    (h : ∀ s ∈ segs, plainSeg s = true) : safeJoin segs = some segs := by
  unfold safeJoin
  rw [normSegs_of_plain h]
  cases segs with
  | nil => simp
  | cons a tl =>
    have h3 := (plainSeg_iff.mp (h a (by simp))).2.2
    simp [h3]

theorem foldl_normStep_shape (segs : List String) :
    ∀ front k, (∀ s ∈ front, plainSeg s = true) →
      ∃ front2 k2, (∀ s ∈ front2, plainSeg s = true) ∧
        segs.foldl normStep (front ++ List.replicate k "..") =
          front2 ++ List.replicate k2 ".." := by
  induction segs with
  | nil => intro front k h; exact ⟨front, k, h, rfl⟩
  | cons a tl ih =>
    intro front k h
    rw [List.foldl_cons]
    by_cases h1 : a = "" ∨ a = "."
    · rw [show normStep (front ++ List.replicate k "..") a =
          front ++ List.replicate k ".." from by simp [normStep, h1]]
      exact ih front k h
    · by_cases h2 : a = ".."
      · cases front with
        | nil =>
          cases k with
          | zero =>
            rw [show normStep ([] ++ List.replicate 0 "..") a =
                [] ++ List.replicate 1 ".." from by simp [normStep, h1, h2]]
            exact ih [] 1 (by simp)
          | succ k0 =>
            rw [show normStep ([] ++ List.replicate (k0 + 1) "..") a =
                [] ++ List.replicate (k0 + 2) ".." from by
              simp [normStep, h1, h2, List.replicate_succ]]
            exact ih [] (k0 + 2) (by simp)
        | cons b front0 =>
          have hb := (plainSeg_iff.mp (h b (by simp))).2.2
          rw [show normStep ((b :: front0) ++ List.replicate k "..") a =
              front0 ++ List.replicate k ".." from by
            simp [normStep, h1, h2, hb]]
          exact ih front0 k (fun s hs => h s (by simp [hs]))
      · have hp : plainSeg a = true :=
          plainSeg_iff.mpr ⟨fun hh => h1 (Or.inl hh), fun hh => h1 (Or.inr hh), h2⟩
        rw [normStep_plain _ hp,
          show a :: (front ++ List.replicate k "..") =
            (a :: front) ++ List.replicate k ".." from rfl]
        refine ih (a :: front) k ?_
        intro s hs
        rcases List.mem_cons.mp hs with h' | h'
        · exact h' ▸ hp
        · exact h s h'

theorem safeJoin_some_plain {fname n : List String}
    (h : safeJoin fname = some n) : ∀ s ∈ n, plainSeg s = true := by
  obtain ⟨front, k, hf, hsh⟩ :=
    foldl_normStep_shape fname [] 0 (fun s hs => by simp at hs)
  simp only [List.replicate_zero, List.append_nil, List.nil_append] at hsh
  have hns : normSegs fname = List.replicate k ".." ++ front.reverse := by
    simp [normSegs, hsh, List.reverse_append, List.reverse_replicate]
  unfold safeJoin at h
  rw [hns] at h
  cases k with
  | zero =>
    simp only [List.replicate_zero, List.nil_append] at h
    split at h
    · exact absurd h (by simp)
    · intro s hs
      rw [← Option.some.injEq _ _ |>.mp h] at hs
      exact hf s (List.mem_reverse.mp hs)
  | succ k0 =>
    simp [List.replicate_succ] at h

theorem escapes_iff {fname : List String} :
    escapes fname = true ↔ safeJoin fname = none := by
  simp [escapes, Option.isNone_iff_eq_none]

theorem sendFromDirectory_escape (fs : FS) (base : List String)
    {fname : List String} (h : escapes fname = true) :
    sendFromDirectory fs base fname = notFound := by
  unfold sendFromDirectory
  rw [escapes_iff.mp h]

theorem sendFromDirectory_file {fs : FS} {base fname : List String}
    {c : List Nat} (hp : ∀ s ∈ fname, plainSeg s = true)
    (hf : fs (base ++ fname) = some (Entry.file c)) :
    sendFromDirectory fs base fname = ⟨200, some c⟩ := by
  simp [sendFromDirectory, safeJoin_of_plain hp, hf]

theorem sendFromDirectory_cases (fs : FS) (base fname : List String) :
    sendFromDirectory fs base fname = notFound ∨
      ∃ n c, safeJoin fname = some n ∧ (∀ s ∈ n, plainSeg s = true) ∧
        fs (base ++ n) = some (Entry.file c) ∧
        sendFromDirectory fs base fname = ⟨200, some c⟩ := by
  cases hsj : safeJoin fname with
  | none => exact Or.inl (by simp [sendFromDirectory, hsj])
  | some n =>
    cases hfs : fs (base ++ n) with
    | none => exact Or.inl (by simp [sendFromDirectory, hsj, hfs])
    | some e =>
      cases e with
      | file c =>
        exact Or.inr ⟨n, c, rfl, safeJoin_some_plain hsj, hfs,
          by simp [sendFromDirectory, hsj, hfs]⟩
      | dir => exact Or.inl (by simp [sendFromDirectory, hsj, hfs])

theorem route_nil (fs : FS) :
    route fs [] = sendFromDirectory fs ["pages"] ["index.html"] := rfl

theorem route_dashboard (fs : FS) :
    route fs ["dashboard"] = sendFromDirectory fs ["pages"] ["dashboard.html"] := by
  simp [route]

theorem route_dashboard_loc (fs : FS) {loc : List String}
    (h : pathParamOk loc = true) :
    route fs ("dashboard" :: loc) =
      sendFromDirectory fs ["pages"] ["dashboard.html"] := by
  cases loc with
  | nil => simp [pathParamOk] at h
  | cons a tl => simp [route, h]

theorem route_js_ok (fs : FS) {rest : List String}
    (h : pathParamOk rest = true) :
    route fs ("js" :: rest) = sendFromDirectory fs ["js"] rest := by
  simp [route, h]

theorem route_js_noparam (fs : FS) {rest : List String}
    (h : pathParamOk rest = false) :
    route fs ("js" :: rest) = notFound := by
  simp [route, h]

theorem route_data_ok (fs : FS) {rest : List String}
    (h : pathParamOk rest = true) :
    route fs ("data" :: rest) = sendFromDirectory fs ["data"] rest := by
  simp [route, h]

theorem route_data_noparam (fs : FS) {rest : List String}
    (h : pathParamOk rest = false) :
    route fs ("data" :: rest) = notFound := by
  simp [route, h]

theorem sendFromDirectory_status (fs : FS) (base fname : List String) :
    (sendFromDirectory fs base fname).status = 200 ∨
      (sendFromDirectory fs base fname).status = 404 := by
  rcases sendFromDirectory_cases fs base fname with h | ⟨n, c, _, _, _, h⟩
  · rw [h]; exact Or.inr rfl
  · rw [h]; exact Or.inl rfl

theorem printLine_mem_output {fs : FS} {ev : ServeEvent} {s : String}
    (h : Action.printLine s ∈ mainTrace fs ev) : s ∈ mainOutput fs ev :=
  List.mem_filterMap.mpr ⟨Action.printLine s, h, rfl⟩

theorem serve_mem_mainTrace_iff (fs : FS) (ev : ServeEvent) :
    Action.serve "localhost" 5000 ∈ mainTrace fs ev ↔ missingFiles fs = [] := by
  constructor
  · intro h
    by_contra hm
    simp [mainTrace, hm] at h
  · intro h
    simp [mainTrace, h]

/-- Claim C1: the router serves exactly the file of the route table — `/`
serves `pages/index.html`, `/dashboard` and `/dashboard/<location>` serve
`pages/dashboard.html`, `/js/<filename>` and `/data/<filename>` serve the
named file from the `js` and `data` directories — and when the resolved
file exists the response is HTTP 200 with that file's byte content. -/
theorem c1_route_table (fs : FS) :
    (∀ c, fs ["pages", "index.html"] = some (Entry.file c) →
      route fs [] = ⟨200, some c⟩) ∧
    (∀ c, fs ["pages", "dashboard.html"] = some (Entry.file c) →
      route fs ["dashboard"] = ⟨200, some c⟩) ∧
    (∀ loc c, pathParamOk loc = true →
      fs ["pages", "dashboard.html"] = some (Entry.file c) →
      route fs ("dashboard" :: loc) = ⟨200, some c⟩) ∧
    (∀ fname c, pathParamOk fname = true →
      (∀ s ∈ fname, plainSeg s = true) →
      fs ("js" :: fname) = some (Entry.file c) →
      route fs ("js" :: fname) = ⟨200, some c⟩) ∧
    (∀ fname c, pathParamOk fname = true →
      (∀ s ∈ fname, plainSeg s = true) →
      fs ("data" :: fname) = some (Entry.file c) →
      route fs ("data" :: fname) = ⟨200, some c⟩) := by
  refine ⟨?_, ?_, ?_, ?_, ?_⟩
  · intro c hc
    rw [route_nil]
    exact sendFromDirectory_file (by decide) hc
  · intro c hc
    rw [route_dashboard]
    exact sendFromDirectory_file (by decide) hc
  · intro loc c hl hc
    rw [route_dashboard_loc fs hl]
    exact sendFromDirectory_file (by decide) hc
  · intro fname c hpp hp hc
    rw [route_js_ok fs hpp]
    exact sendFromDirectory_file hp hc
  · intro fname c hpp hp hc
    rw [route_data_ok fs hpp]
    exact sendFromDirectory_file hp hc

/-- Claim C2: for every accepted location sub-path, the response to
`/dashboard/<location>` is identical to the response to `/dashboard`: the
location parameter has no effect on the served content. -/
theorem c2_dashboard_location (fs : FS) (loc : List String)
    (h : pathParamOk loc = true) :
    route fs ("dashboard" :: loc) = route fs ["dashboard"] :=
  (route_dashboard_loc fs h).trans (route_dashboard fs).symm

/-- Witness for C2 at a concrete filesystem and location. -/
theorem c2_dashboard_location_witness :
    route demoFS ["dashboard", "room-101"] = route demoFS ["dashboard"] :=
  c2_dashboard_location demoFS ["room-101"] (by decide)

/-- Claim C3: a `/js/<filename>` or `/data/<filename>` request whose
filename escapes the base directory after normalisation is answered 404,
and any byte content the two routes ever serve is the content of a file
inside their base directory: the path it comes from extends the base with
plain segments only (no `..`, `.` or empty segment). -/
theorem c3_traversal_safe (fs : FS) (rest : List String) :
    (escapes rest = true →
      route fs ("js" :: rest) = notFound ∧
      route fs ("data" :: rest) = notFound) ∧
    (∀ c, (route fs ("js" :: rest)).body = some c →
      ∃ n, (∀ s ∈ n, plainSeg s = true) ∧
        fs ("js" :: n) = some (Entry.file c)) ∧
    (∀ c, (route fs ("data" :: rest)).body = some c →
      ∃ n, (∀ s ∈ n, plainSeg s = true) ∧
        fs ("data" :: n) = some (Entry.file c)) := by
  refine ⟨?_, ?_, ?_⟩
  · intro he
    cases hpp : pathParamOk rest with
    | false => exact ⟨route_js_noparam fs hpp, route_data_noparam fs hpp⟩
    | true =>
      rw [route_js_ok fs hpp, route_data_ok fs hpp]
      exact ⟨sendFromDirectory_escape fs ["js"] he,
        sendFromDirectory_escape fs ["data"] he⟩
  · intro c hc
    cases hpp : pathParamOk rest with
    | false => rw [route_js_noparam fs hpp] at hc; simp [notFound] at hc
    | true =>
      rw [route_js_ok fs hpp] at hc
      rcases sendFromDirectory_cases fs ["js"] rest with h | ⟨n, c2, _, hn, hf, h⟩
      · rw [h] at hc; simp [notFound] at hc
      · rw [h] at hc
        simp only [Option.some.injEq] at hc
        exact ⟨n, hn, by rw [← hc]; exact hf⟩
  · intro c hc
    cases hpp : pathParamOk rest with
    | false => rw [route_data_noparam fs hpp] at hc; simp [notFound] at hc
    | true =>
      rw [route_data_ok fs hpp] at hc
      rcases sendFromDirectory_cases fs ["data"] rest with h | ⟨n, c2, _, hn, hf, h⟩
      · rw [h] at hc; simp [notFound] at hc
      · rw [h] at hc
        simp only [Option.some.injEq] at hc
        exact ⟨n, hn, by rw [← hc]; exact hf⟩

/-- Claim C4: when required files are missing at startup, the process exits
with code 1, every missing path is printed, and the serve action never
appears in the trace — the listening port is never bound. -/
theorem c4_missing_files (fs : FS) (ev : ServeEvent)
    (h : missingFiles fs ≠ []) :
    mainExitCode fs ev = 1 ∧
    (∀ p ∈ missingFiles fs, ("  - " ++ joinPath p) ∈ mainOutput fs ev) ∧
    (∀ host port, Action.serve host port ∉ mainTrace fs ev) := by
  refine ⟨by simp [mainExitCode, h], ?_, ?_⟩
  · intro p hp
    apply printLine_mem_output
    unfold mainTrace
    rw [if_neg h]
    exact List.mem_cons_of_mem _ (List.mem_append_right _
      (List.mem_cons_of_mem _ (List.mem_append_left _
        (List.mem_map_of_mem _ hp))))
  · intro host port hmem
    simp [mainTrace, h] at hmem

/-- Witness for C4 on the empty filesystem. -/
theorem c4_missing_files_witness :
    mainExitCode emptyFS ServeEvent.normal = 1 ∧
    (∀ p ∈ missingFiles emptyFS,
      ("  - " ++ joinPath p) ∈ mainOutput emptyFS ServeEvent.normal) ∧
    (∀ host port,
      Action.serve host port ∉ mainTrace emptyFS ServeEvent.normal) :=
  c4_missing_files emptyFS ServeEvent.normal (by decide)

/-- Claim C5: the exit code is 0 exactly for a normal or
operator-interrupted shutdown and is otherwise 1; an interrupt while
serving prints the farewell lines and exits 0, any other serve exception
prints the error line and exits 1. -/
theorem c5_exit_codes (fs : FS) (ev : ServeEvent) :
    (mainExitCode fs ev = 0 ↔
      (missingFiles fs = [] ∧ ∀ m, ev ≠ ServeEvent.exn m)) ∧
    (mainExitCode fs ev = 0 ∨ mainExitCode fs ev = 1) ∧
    (missingFiles fs = [] →
      mainExitCode fs ServeEvent.interrupt = 0 ∧
      "\n👋 Server stopped by user" ∈ mainOutput fs ServeEvent.interrupt ∧
      "Thanks for using Campus Air Quality Monitor!" ∈
        mainOutput fs ServeEvent.interrupt) ∧
    (∀ m, missingFiles fs = [] →
      mainExitCode fs (ServeEvent.exn m) = 1 ∧
      ("❌ Error starting server: " ++ m) ∈
        mainOutput fs (ServeEvent.exn m)) := by
  refine ⟨?_, ?_, ?_, ?_⟩
  · by_cases hm : missingFiles fs = []
    · cases ev with
      | interrupt => simp [mainExitCode, hm]
      | exn m => simp [mainExitCode, hm]
      | normal => simp [mainExitCode, hm]
    · simp [mainExitCode, hm]
  · by_cases hm : missingFiles fs = []
    · cases ev <;> simp [mainExitCode, hm]
    · simp [mainExitCode, hm]
  · intro hm
    refine ⟨by simp [mainExitCode, hm], ?_, ?_⟩
    · exact printLine_mem_output (by simp [mainTrace, hm, outcomeTrace])
    · exact printLine_mem_output (by simp [mainTrace, hm, outcomeTrace])
  · intro m hm
    refine ⟨by simp [mainExitCode, hm], ?_⟩
    exact printLine_mem_output (by simp [mainTrace, hm, outcomeTrace])

/-- Claim C6: every response of the router has status 200 or 404, and a
`/js/<filename>` or `/data/<filename>` request whose safe-joined filename
names no entry is answered 404. -/
theorem c6_status_codes (fs : FS) :
    (∀ path, (route fs path).status = 200 ∨ (route fs path).status = 404) ∧
    (∀ rest n, safeJoin rest = some n → fs ("js" :: n) = none →
      route fs ("js" :: rest) = notFound) ∧
    (∀ rest n, safeJoin rest = some n → fs ("data" :: n) = none →
      route fs ("data" :: rest) = notFound) := by
  refine ⟨?_, ?_, ?_⟩
  · intro path
    cases path with
    | nil => rw [route_nil]; exact sendFromDirectory_status fs _ _
    | cons seg rest =>
      simp only [route]
      split_ifs <;>
        first
          | exact sendFromDirectory_status fs _ _
          | exact Or.inr rfl
  · intro rest n hsj hm
    cases hpp : pathParamOk rest with
    | false => exact route_js_noparam fs hpp
    | true =>
      rw [route_js_ok fs hpp]
      simp [sendFromDirectory, hsj, hm]
  · intro rest n hsj hm
    cases hpp : pathParamOk rest with
    | false => exact route_data_noparam fs hpp
    | true =>
      rw [route_data_ok fs hpp]
      simp [sendFromDirectory, hsj, hm]

/-- Claim C7: the browser task sleeps 1.5 seconds, attempts to open
`http://localhost:5000` exactly once, never takes the server down, and
when the attempt raises it prints the fallback instruction naming
`http://localhost:5000`. -/
theorem c7_browser_task (r : BrowserAttempt) :
    (open_browser r).delaySecs = 1.5 ∧
    (open_browser r).openedUrls = ["http://localhost:5000"] ∧
    (open_browser r).fatal = false ∧
    (∀ m, r = BrowserAttempt.raises m →
      fallbackLine ∈ (open_browser r).printed) := by
  refine ⟨rfl, rfl, rfl, ?_⟩
  intro m hm
  subst hm
  simp [open_browser]

/-- Claim C8: when validation succeeds the startup trace is, in order:
compute the project root, check the four required files in list order,
print the status block, build the app, launch the delayed browser task,
print the starting line and serve on `localhost:5000`, ending as the
serve outcome dictates. -/
theorem c8_startup_order (fs : FS) (ev : ServeEvent)
    (h : missingFiles fs = []) :
    mainTrace fs ev =
      Action.computeRoot :: requiredFiles.map Action.checkExists ++
      bannerLines.map Action.printLine ++
      [Action.createApp, Action.startBrowserThread,
       Action.printLine startingLine, Action.serve "localhost" 5000] ++
      outcomeTrace ev := by
  simp [mainTrace, h]

/-- Witness for C8 at a filesystem holding all four required files. -/
theorem c8_startup_order_witness :
    mainTrace demoFS ServeEvent.normal =
      Action.computeRoot :: requiredFiles.map Action.checkExists ++
      bannerLines.map Action.printLine ++
      [Action.createApp, Action.startBrowserThread,
       Action.printLine startingLine, Action.serve "localhost" 5000] ++
      outcomeTrace ServeEvent.normal :=
  c8_startup_order demoFS ServeEvent.normal (by decide)

/-- Claim C9: the fallback instruction is printed exactly when
`webbrowser.open` raises; whenever the call returns — even returning
`false`, meaning no browser could be opened — the task prints the success
message. -/
theorem c9_success_message_on_return :
    (∀ b, (open_browser (BrowserAttempt.returns b)).printed =
      ["Browser opened successfully!"]) ∧
    (∀ r, fallbackLine ∈ (open_browser r).printed ↔
      ∃ m, r = BrowserAttempt.raises m) := by
  refine ⟨fun b => rfl, ?_⟩
  intro r
  cases r with
  | returns b => simp [open_browser, fallbackLine]
  | raises m => simp [open_browser]

/-- Claim C10: startup validation tests only existence: any entry of any
kind, a directory included, satisfies the check; validation passes — and
the serve action is reached — exactly when all four required paths exist;
and the check depends on nothing but existence, performing no write to the
filesystem. -/
theorem c10_existence_only (fs : FS) (ev : ServeEvent) :
    (missingFiles fs = [] ↔
      ∀ p ∈ requiredFiles, existsEntry fs p = true) ∧
    (∀ p, fs p = some Entry.dir → existsEntry fs p = true) ∧
    (Action.serve "localhost" 5000 ∈ mainTrace fs ev ↔
      ∀ p ∈ requiredFiles, existsEntry fs p = true) ∧
    (∀ fs2 : FS, (∀ p, existsEntry fs p = existsEntry fs2 p) →
      missingFiles fs = missingFiles fs2) := by
  have h1 : missingFiles fs = [] ↔
      ∀ p ∈ requiredFiles, existsEntry fs p = true := by
    simp [missingFiles, List.filter_eq_nil_iff]
  refine ⟨h1, ?_, (serve_mem_mainTrace_iff fs ev).trans h1, ?_⟩
  · intro p hp
    simp [existsEntry, hp]
  · intro fs2 hq
    unfold missingFiles
    exact List.filter_congr (fun p _ => by rw [hq p])

end AirMonitor
